import Mathlib

/-!
Verification development for the SOAVector container (soa.cpp).

SOAVector<Types...> stores N parallel arrays (one per declared element type)
inside a single raw memory block.  We embed it shallowly, with two models:

* The layout calculator getArrayOffsetsAndAllocationSize is a pure function on
  the per-type byte sizes and alignments; it is translated literally, including
  the zero-initialisation of offsets[0] and the initial cursor value
  alignments[0].

* The value-level SOAVector records (arrays, size_, capacity_); its arrays
  field holds the values the program intends each live slot to hold.  This
  view is faithful for the operations that perform no byte writes at all
  (queries, the untaken guard branches) or adopt the block wholesale (move
  transfer), and for all size_/capacity_ arithmetic.

* The byte-level ByteSOA records the raw block as a list of byte values
  together with the per-array offsets, and translates placement construction,
  the per-array moveElements of reallocate, and get as actual byte writes and
  reads at the addresses the source computes.  Because the layout function
  leaves the sub-ranges overlapping whenever capacity * sizeof(type 0)
  exceeds offsets[1] (see the claim C1 theorem), those writes can land inside
  a sibling array's live bytes; the byte model exhibits this corruption,
  which the value-level arrays field cannot.

* soa.cpp declares SOAVector() = default with no member initialisers; the
  second copy of the class in the repository gives the members the explicit
  defaults nullptr / 0 / 0, and every claim below starts containers from that
  empty state.

* growth_factor is the float 1.5, and push_back requests
  size_ * growth_factor + 1 converted back to size_type (truncation); for
  sizes where the float arithmetic is exact this is 3 * size_ / 2 + 1 in
  natural-number arithmetic, which is how growCap is defined.

* soa.cpp guards both assignment operators with &other == this; the second
  class copy in the repository has assignment operators without the guard,
  whose self-assignment behaviour is modelled separately
  (selfCopyAssignNoGuard, selfMoveAssignNoGuard).
-/

namespace SOA

/-- Rounding up to a multiple of an alignment: the expression
(p + alignments[i] - 1) / alignments[i] * alignments[i] from the source. -/
def roundUpTo (p a : Nat) : Nat := (p + a - 1) / a * a

/-- The loop of getArrayOffsetsAndAllocationSize over indices 1 .. N-1: the
argument list pairs each remaining type's total byte size
(sizeof(Types) * element_count) with its alignment; p is the running byte
cursor.  Returns the offsets recorded by the loop and the final cursor. -/
def layoutLoop (p : Nat) : List (Nat × Nat) → List Nat × Nat
  | [] => ([], p)
  | sa :: rest =>
    let p1 := roundUpTo p sa.2
    let r := layoutLoop (p1 + sa.1) rest
    (p1 :: r.1, r.2)

/-- getArrayOffsetsAndAllocationSize from soa.cpp, for type lists given by
their sizeof and alignof values.  offsets is zero-initialised, so offsets[0]
stays 0; the cursor p starts at alignments[0] (the byte size
sizeof(type 0) * element_count is computed in the source but never added to
the cursor); the loop rounds p up to alignments[i], records it as offsets[i]
and advances p by sizes[i].  Returns (offsets, p). -/
def getArrayOffsetsAndAllocationSize (sizeofs aligns : List Nat)
    (element_count : Nat) : List Nat × Nat :=
  match sizeofs, aligns with
  | _ :: srest, a0 :: arest =>
    let r := layoutLoop a0 ((srest.map fun s => s * element_count).zip arest)
    (0 :: r.1, r.2)
  | _, _ => ([], 0)

/-- Helper for specLayoutOffsets: given the previous offset and the previous
type's sizeof, each next offset is the previous offset plus the previous
sub-range's bytes, rounded up to the next type's alignment. -/
def specLayoutGo (element_count prevOff prevSz : Nat) :
    List (Nat × Nat) → List Nat
  | [] => []
  | sa :: rest =>
    let o := roundUpTo (prevOff + prevSz * element_count) sa.2
    o :: specLayoutGo element_count o sa.1 rest

/-- The layout property stated by the spec (section 3 invariant), written as
its own definition to compare with the source's function: offsets[0] equals
alignof(type 0) and each offsets[i] is the smallest multiple of
alignof(type i) at least offsets[i-1] + element_count * sizeof(type i-1). -/
def specLayoutOffsets (sizeofs aligns : List Nat) (element_count : Nat) :
    List Nat :=
  match sizeofs, aligns with
  | s0 :: srest, a0 :: arest => a0 :: specLayoutGo element_count a0 s0 (srest.zip arest)
  | _, _ => []

/-- The value-level container state: one list of live element values per
declared type (all element types are drawn from one Lean type Val), together
with the size_ and capacity_ members.  The arrays field records the values
the program intends the live slots to hold; where the source's byte writes
can deviate from that intent, the byte-level ByteSOA below is used
instead. -/
structure SOAVector (Val : Type) where
  arrays : List (List Val)
  size_ : Nat
  capacity_ : Nat
  deriving Repr, DecidableEq

/-- The empty container with N declared types: the state written by the
repository's member initialisers (null block, size 0, capacity 0). -/
def mkEmptyN (N : Nat) (Val : Type) : SOAVector Val :=
  ⟨List.replicate N [], 0, 0⟩

/-- size() member function. -/
def size {Val : Type} (s : SOAVector Val) : Nat := s.size_

/-- capacity() member function. -/
def capacity {Val : Type} (s : SOAVector Val) : Nat := s.capacity_

/-- empty() member function, translated as written in the source:
return this->size_ > 0. -/
def empty {Val : Type} (s : SOAVector Val) : Bool := decide (s.size_ > 0)

/-- get<TypeIndex>(index) in the value view: the element of array i at
logical position k.  Out-of-range access (asserted against in the source)
yields none. -/
def get {Val : Type} (s : SOAVector Val) (i k : Nat) : Option Val :=
  s.arrays[i]?.bind fun a => a[k]?

/-- reallocate(new_capacity) in the value view.  The size_/capacity_
bookkeeping is exact (the source asserts new_capacity >= size_ and then sets
capacity_ = new_capacity); the arrays field is carried over unchanged, which
encodes the intended effect of the per-array moveElements calls.  The
byte-level reallocateB below performs the actual moves; with overlapping
sub-ranges they do not preserve element bytes (see the claim C3 and C9
theorems), so this value view is relied on only for size/capacity facts and
for branches that perform no writes. -/
def reallocate {Val : Type} (s : SOAVector Val) (new_capacity : Nat) :
    SOAVector Val :=
  { s with capacity_ := new_capacity }

/-- reserve(new_capacity): reallocates only when new_capacity > capacity_;
the untaken branch performs no writes at all. -/
def reserve {Val : Type} (s : SOAVector Val) (new_capacity : Nat) :
    SOAVector Val :=
  if new_capacity > s.capacity_ then reallocate s new_capacity else s

/-- shrink_to_fit(): reallocates to size_ only when capacity_ > size_. -/
def shrink_to_fit {Val : Type} (s : SOAVector Val) : SOAVector Val :=
  if s.capacity_ > s.size_ then reallocate s s.size_ else s

/-- clear(): destroys the live elements of every array and sets size_ to 0;
capacity_ and the allocation are retained. -/
def clear {Val : Type} (s : SOAVector Val) : SOAVector Val :=
  { s with arrays := s.arrays.map fun _ => ([] : List Val), size_ := 0 }

/-- The capacity requested by push_back when it must grow:
this->size_ * growth_factor + 1 with growth_factor = 1.5, truncated back to
size_type; in exact arithmetic 3 * size_ / 2 + 1. -/
def growCap (sz : Nat) : Nat := 3 * sz / 2 + 1

/-- push_back(args...) in the value view: grows via
reserve(size_ * growth_factor + 1) when size_ + 1 > capacity_, then
increments size_; the arrays field appends the pushed values, the intended
effect of the per-array placement constructions at slot size_.  The
byte-level push_backB performs the actual writes, which can land inside a
sibling array's live sub-range (see the claim C2 theorem).  The
size_/capacity_ arithmetic here is exact. -/
def push_back {Val : Type} (s : SOAVector Val) (vals : List Val) :
    SOAVector Val :=
  let s1 := if s.size_ + 1 > s.capacity_ then reserve s (growCap s.size_) else s
  { s1 with arrays := List.zipWith (fun a v => a ++ [v]) s1.arrays vals,
            size_ := s1.size_ + 1 }

/-- pop_back(): destroys the element at slot size_ - 1 of every array and
decrements size_ (the source asserts size_ > 0 beforehand); destructors do
not write to the block. -/
def pop_back {Val : Type} (s : SOAVector Val) : SOAVector Val :=
  { s with arrays := s.arrays.map List.dropLast, size_ := s.size_ - 1 }

/-- Copy construction: members start from the empty state, then
reserve(other.size()) and copyElements of the size_ live elements of every
array, then size_ = other.size_. -/
def copyCtor {Val : Type} (other : SOAVector Val) : SOAVector Val :=
  let t := reserve ⟨other.arrays.map fun _ => ([] : List Val), 0, 0⟩ other.size_
  { t with arrays := other.arrays.map fun a => a.take other.size_,
           size_ := other.size_ }

/-- Copy assignment as written in soa.cpp (and the first class copy of the
repository): the aliased flag is the address check &other == this, and when
it holds the operator returns immediately.  Otherwise: clear(),
reserve(other.size()), copyElements per array, size_ = other.size_.  The
second class copy in the repository has no such check; its self-assignment
behaviour is selfCopyAssignNoGuard below. -/
def copyAssign {Val : Type} (aliased : Bool) (this other : SOAVector Val) :
    SOAVector Val :=
  if aliased then this
  else
    let t := reserve (clear this) other.size_
    { t with arrays := other.arrays.map fun a => a.take other.size_,
             size_ := other.size_ }

/-- Move construction: the target adopts the source's block, size and
capacity; the source's pointers are nulled and its size and capacity zeroed.
Returns (target, moved-from source). -/
def moveCtor {Val : Type} (other : SOAVector Val) :
    SOAVector Val × SOAVector Val :=
  (⟨other.arrays, other.size_, other.capacity_⟩,
   ⟨other.arrays.map fun _ => ([] : List Val), 0, 0⟩)

/-- Move assignment as written in soa.cpp (and the first class copy): the
aliased flag is the address check &other == this, and when it holds the
operator returns immediately and nothing changes.  Otherwise the target
clears itself, frees its block, adopts the source's block, size and capacity,
and the source is left nulled with size and capacity 0.  Returns
(target, moved-from source).  The second class copy has no such check; its
self-assignment behaviour is selfMoveAssignNoGuard below. -/
def moveAssign {Val : Type} (aliased : Bool) (this other : SOAVector Val) :
    SOAVector Val × SOAVector Val :=
  if aliased then (this, other)
  else (⟨other.arrays, other.size_, other.capacity_⟩,
        ⟨other.arrays.map fun _ => ([] : List Val), 0, 0⟩)

/-- Copy assignment of the second class copy of the repository, which has no
&other == this check, evaluated in the self-assignment case A = A.  Since
other aliases this, the statements execute as: clear() destroys every live
element and zeroes size_; other.size() then reads the already-zeroed size, so
reserve(0) takes its untaken branch and the copy loop copies nothing;
finally size_ = other.size_ keeps 0. -/
def selfCopyAssignNoGuard {Val : Type} (a : SOAVector Val) : SOAVector Val :=
  let t := clear a
  let t1 := reserve t (size t)
  { t1 with size_ := size t1 }

/-- Move assignment of the second class copy, which has no &other == this
check, evaluated at A = move(A).  Since other aliases this: clear() destroys
every live element; the owned block is freed once; the member self-assignment
copies the now-dangling pointer and the zeroed size; the final nulling of the
source writes through the same object, leaving the data pointer null, size_ 0
and capacity_ 0. -/
def selfMoveAssignNoGuard {Val : Type} (a : SOAVector Val) : SOAVector Val :=
  let t := clear a
  ⟨t.arrays, 0, 0⟩

/-- The sized constructor SOAVector(size): reserve(size), size_ = size, then
default-construction of size elements in every array. -/
def sizedCtor {Val : Type} (N : Nat) (defaultVal : Val) (n : Nat) :
    SOAVector Val :=
  let t := reserve (mkEmptyN N Val) n
  { t with arrays := t.arrays.map fun _ => List.replicate n defaultVal,
           size_ := n }

/-- The documented container invariant 0 <= size <= capacity (the lower bound
is inherent to Nat). -/
def Inv {Val : Type} (s : SOAVector Val) : Prop := s.size_ ≤ s.capacity_

instance {Val : Type} (s : SOAVector Val) : Decidable (Inv s) := by
  unfold Inv; infer_instance

/-! The byte-level model.  A declared type list is given as
(sizeof, alignof) pairs; an element value of type i is its list of sizeof(i)
byte values.  Every write performed in the evaluations below stays inside the
allocated block, and every byte the evaluations read was written by the
program, so the conclusions do not depend on the convention that fresh
allocations are modelled as zero bytes. -/

/-- Write a list of byte values into memory starting at the given address:
the effect of placement-constructing one element's bytes. -/
def writeBytes (mem : List Nat) (addr : Nat) : List Nat → List Nat
  | [] => mem
  | b :: rest => writeBytes (mem.set addr b) (addr + 1) rest

/-- Read len bytes starting at addr. -/
def readBytes (mem : List Nat) (addr len : Nat) : List Nat :=
  (mem.drop addr).take len

/-- The byte-level container state: the raw block, the per-array byte offsets
into it (array_ptrs_ relative to the block start), and the size_ and
capacity_ members. -/
structure ByteSOA where
  mem : List Nat
  offsets : List Nat
  size_ : Nat
  capacity_ : Nat
  deriving Repr, DecidableEq

/-- The empty byte-level container with N declared types. -/
def mkEmptyB (N : Nat) : ByteSOA := ⟨[], List.replicate N 0, 0, 0⟩

/-- get<i>(k) at the byte level: read sizeof(type i) bytes at
offsets[i] + k * sizeof(type i), exactly the address data<i>() + k resolves
to. -/
def getB (tys : List (Nat × Nat)) (s : ByteSOA) (i k : Nat) : List Nat :=
  let sz := (tys.getD i (0, 0)).1
  readBytes s.mem (s.offsets.getD i 0 + k * sz) sz

/-- The per-array moveElements calls of reallocate, in declaration order:
for each type, copy the n live elements (n * sizeof bytes, element by element
in source order) from the old block at the old offset into the new block at
the new offset.  Later arrays write after earlier ones, exactly as the fold
over the parameter pack executes. -/
def moveArraysB (oldMem : List Nat) (n : Nat) :
    List (Nat × Nat × Nat) → List Nat → List Nat
  | [], newMem => newMem
  | (szof, srcOff, dstOff) :: rest, newMem =>
    moveArraysB oldMem n rest
      (writeBytes newMem dstOff (readBytes oldMem srcOff (n * szof)))

/-- reallocate(new_capacity) at the byte level: compute the new offsets and
total size with getArrayOffsetsAndAllocationSize, allocate a fresh block
(fresh bytes modelled as 0), move every array's size_ live elements to its
new offset in declaration order, adopt the new block, offsets and
capacity. -/
def reallocateB (tys : List (Nat × Nat)) (s : ByteSOA) (new_capacity : Nat) :
    ByteSOA :=
  let r := getArrayOffsetsAndAllocationSize (tys.map fun t => t.1)
    (tys.map fun t => t.2) new_capacity
  let newMem := moveArraysB s.mem s.size_
    ((tys.map fun t => t.1).zip (s.offsets.zip r.1)) (List.replicate r.2 0)
  ⟨newMem, r.1, s.size_, new_capacity⟩

/-- reserve(new_capacity) at the byte level. -/
def reserveB (tys : List (Nat × Nat)) (s : ByteSOA) (n : Nat) : ByteSOA :=
  if n > s.capacity_ then reallocateB tys s n else s

/-- shrink_to_fit() at the byte level. -/
def shrink_to_fitB (tys : List (Nat × Nat)) (s : ByteSOA) : ByteSOA :=
  if s.capacity_ > s.size_ then reallocateB tys s s.size_ else s

/-- The per-array placement constructions of push_back, in declaration order:
for each type, write the pushed element's bytes at offsets[i] + n * sizeof
where n is the size before the push. -/
def writeElemsB (n : Nat) : List (Nat × Nat × List Nat) → List Nat → List Nat
  | [], mem => mem
  | (szof, off, bs) :: rest, mem =>
    writeElemsB n rest (writeBytes mem (off + n * szof) bs)

/-- push_back(args...) at the byte level: grow exactly as the source does,
then placement-construct one element per array at slot size_ and increment
size_. -/
def push_backB (tys : List (Nat × Nat)) (s : ByteSOA)
    (vals : List (List Nat)) : ByteSOA :=
  let s1 := if s.size_ + 1 > s.capacity_ then reserveB tys s (growCap s.size_)
            else s
  ⟨writeElemsB s1.size_ ((tys.map fun t => t.1).zip (s1.offsets.zip vals)) s1.mem,
   s1.offsets, s1.size_ + 1, s1.capacity_⟩

/-- pop_back() at the byte level: the destructor calls do not write to the
block; size_ is decremented. -/
def pop_backB (s : ByteSOA) : ByteSOA := { s with size_ := s.size_ - 1 }

/-- The type pair (int16_t, int32_t): (sizeof, alignof) = (2, 2), (4, 4). -/
def tysPair : List (Nat × Nat) := [(2, 2), (4, 4)]

/-- The type triple (double, int16_t, int32_t):
(sizeof, alignof) = (8, 8), (2, 2), (4, 4). -/
def tysTriple : List (Nat × Nat) := [(8, 8), (2, 2), (4, 4)]

/-- Three push_back calls on an initially empty SOAVector<int16_t, int32_t>,
pushing the records (bytes [1,1], [10,10,10,10]), ([2,2], [20,20,20,20]) and
([3,3], [30,30,30,30]); the growth path is capacity 0, 1, 2, 4. -/
def pushedThrice : ByteSOA :=
  push_backB tysPair
    (push_backB tysPair
      (push_backB tysPair (mkEmptyB 2) [[1, 1], [10, 10, 10, 10]])
      [[2, 2], [20, 20, 20, 20]])
    [[3, 3], [30, 30, 30, 30]]

/-- An SOAVector<double, int16_t, int32_t> built by reserve(3) and three
push_back calls, with pairwise distinct pushed bytes; size 3, capacity 3. -/
def threeLiveAtCap3 : ByteSOA :=
  push_backB tysTriple
    (push_backB tysTriple
      (push_backB tysTriple (reserveB tysTriple (mkEmptyB 3) 3)
        [[1, 2, 3, 4, 5, 6, 7, 8], [11, 12], [21, 22, 23, 24]])
      [[31, 32, 33, 34, 35, 36, 37, 38], [41, 42], [51, 52, 53, 54]])
    [[61, 62, 63, 64, 65, 66, 67, 68], [71, 72], [81, 82, 83, 84]]

/-- The same three records pushed after reserve(6) instead; size 3,
capacity 6. -/
def threeLiveAtCap6 : ByteSOA :=
  push_backB tysTriple
    (push_backB tysTriple
      (push_backB tysTriple (reserveB tysTriple (mkEmptyB 3) 6)
        [[1, 2, 3, 4, 5, 6, 7, 8], [11, 12], [21, 22, 23, 24]])
      [[31, 32, 33, 34, 35, 36, 37, 38], [41, 42], [51, 52, 53, 54]])
    [[61, 62, 63, 64, 65, 66, 67, 68], [71, 72], [81, 82, 83, 84]]

/-! Basic facts about the operations, shared by the claim theorems below. -/

theorem size_push_back {Val : Type} (s : SOAVector Val) (vals : List Val) :
    (push_back s vals).size_ = s.size_ + 1 := by
  unfold push_back reserve reallocate
  dsimp only
  split <;> [skip; rfl]
  split <;> rfl

theorem capacity_push_back {Val : Type} (s : SOAVector Val) (vals : List Val) :
    (push_back s vals).capacity_
      = if s.size_ + 1 > s.capacity_ then growCap s.size_ else s.capacity_ := by
  unfold push_back reserve reallocate growCap
  dsimp only
  by_cases h : s.size_ + 1 > s.capacity_
  · have h2 : 3 * s.size_ / 2 + 1 > s.capacity_ := by omega
    simp [h, h2, growCap]
  · simp [h]

theorem reserve_of_le {Val : Type} (s : SOAVector Val) (n : Nat)
    (h : n ≤ s.capacity_) : reserve s n = s := by
  unfold reserve
  simp [Nat.not_lt.mpr h]

/-- Claim C2: the size() bookkeeping matches the claim (three pushes, no
pops, final size 3), but get-after-push fails on the source because
placement construction writes into a sibling array's live sub-range.
SOAVector<int16_t, int32_t> has layout offsets [0, 4] at every capacity, so
at capacity 4 the sub-range of array 0 is bytes [0, 8) and overlaps array 1.
Pushing three records from the empty container grows the capacity
0, 1, 2, 4, and the third push constructs a0[2] at bytes [4, 6) inside the
live a1[0] at bytes [4, 8); get<1>(0) afterwards returns the bytes of a0[2]
followed by half of a1[0] instead of the int32 value pushed first and never
popped, which the claim says it returns. -/
theorem push_overwrites_sibling_array :
    pushedThrice.size_ = 3 ∧
    pushedThrice.capacity_ = 4 ∧
    pushedThrice.offsets = [0, 4] ∧
    getB tysPair pushedThrice 1 0 = [3, 3, 10, 10] ∧
    getB tysPair pushedThrice 1 0 ≠ [10, 10, 10, 10] := by
  refine ⟨by decide, by decide, by decide, by decide, by decide⟩

/-- Claim C3: the capacity and size conjuncts hold (capacity() = 5, size()
unchanged at 3), but the element-preservation conjunct is false of the
source.  On SOAVector<double, int16_t, int32_t> the offsets are [0, 8, 16]
at capacity 3 and [0, 8, 20] at capacity 5, while array 0's live bytes
[0, 24) always overlap the later offsets.  During reserve(5) the moves run
in declaration order: array 0's three doubles land at bytes [0, 24), then
array 2's move into its new offset 20 overwrites bytes [20, 24) of the
already-moved a0[2].  get<0>(2) therefore changes from the bytes written for
it, [61 .. 68], to [61, 62, 63, 64, 61, 62, 63, 64]. -/
theorem reserve_corrupts_moved_elements :
    threeLiveAtCap3.size_ = 3 ∧
    threeLiveAtCap3.capacity_ = 3 ∧
    (reserveB tysTriple threeLiveAtCap3 5).capacity_ = 5 ∧
    (reserveB tysTriple threeLiveAtCap3 5).size_ = 3 ∧
    getB tysTriple threeLiveAtCap3 0 2 = [61, 62, 63, 64, 65, 66, 67, 68] ∧
    getB tysTriple (reserveB tysTriple threeLiveAtCap3 5) 0 2
      = [61, 62, 63, 64, 61, 62, 63, 64] ∧
    getB tysTriple (reserveB tysTriple threeLiveAtCap3 5) 0 2
      ≠ getB tysTriple threeLiveAtCap3 0 2 := by
  refine ⟨by decide, by decide, by decide, by decide, by decide, by decide,
          by decide⟩

/-- Claim C8 (confirmed): reserve(n) with n <= capacity() takes the untaken
branch of the guard new_capacity > capacity_, performing no writes at all,
and is a complete no-op: capacity, size and every element value are
unchanged. -/
theorem reserve_noop_spec {Val : Type} (s : SOAVector Val) (n : Nat)
    (h : n ≤ s.capacity_) :
    capacity (reserve s n) = capacity s ∧ size (reserve s n) = size s ∧
    ∀ i k, get (reserve s n) i k = get s i k := by
  rw [reserve_of_le s n h]
  exact ⟨rfl, rfl, fun i k => rfl⟩

theorem reserve_noop_spec_witness :
    ((2 : Nat) ≤ 3) ∧
    (capacity (reserve (⟨[[4, 5]], 2, 3⟩ : SOAVector Nat) 2)
       = capacity (⟨[[4, 5]], 2, 3⟩ : SOAVector Nat) ∧
     size (reserve (⟨[[4, 5]], 2, 3⟩ : SOAVector Nat) 2)
       = size (⟨[[4, 5]], 2, 3⟩ : SOAVector Nat) ∧
     ∀ i k, get (reserve (⟨[[4, 5]], 2, 3⟩ : SOAVector Nat) 2) i k
       = get (⟨[[4, 5]], 2, 3⟩ : SOAVector Nat) i k) :=
  ⟨by decide, reserve_noop_spec (⟨[[4, 5]], 2, 3⟩ : SOAVector Nat) 2 (by decide)⟩

/-- Claim C9: the capacity conjunct holds (capacity() = size() = 3
afterwards, and the call is a no-op when they were already equal), but the
element-preservation conjunct is false of the source.  On
SOAVector<double, int16_t, int32_t> with size 3 and capacity 6 the offsets
are [0, 8, 20]; shrink_to_fit() reallocates to capacity 3 with offsets
[0, 8, 16], and the moves run in declaration order: array 0's three doubles
land at bytes [0, 24), then array 2's move into its new offset 16 overwrites
bytes [16, 24) of the already-moved a0[2] with the bytes read from old
offset 20.  get<0>(2) therefore changes from [61 .. 68] to
[65, 66, 67, 68, 51, 52, 53, 54]. -/
theorem shrink_corrupts_moved_elements :
    threeLiveAtCap6.size_ = 3 ∧
    threeLiveAtCap6.capacity_ = 6 ∧
    (shrink_to_fitB tysTriple threeLiveAtCap6).capacity_ = 3 ∧
    (shrink_to_fitB tysTriple threeLiveAtCap6).size_ = 3 ∧
    getB tysTriple threeLiveAtCap6 0 2 = [61, 62, 63, 64, 65, 66, 67, 68] ∧
    getB tysTriple (shrink_to_fitB tysTriple threeLiveAtCap6) 0 2
      = [65, 66, 67, 68, 51, 52, 53, 54] ∧
    getB tysTriple (shrink_to_fitB tysTriple threeLiveAtCap6) 0 2
      ≠ getB tysTriple threeLiveAtCap6 0 2 := by
  refine ⟨by decide, by decide, by decide, by decide, by decide, by decide,
          by decide⟩

/-- Claim C6, counterexample: the claim quantifies over both cited sources,
but the second class copy's assignment operators have no &other == this
check.  At the concrete container with one array holding [5], size 1 and
capacity 2, its A = A destroys the element and zeroes the size, and its
A = move(A) additionally frees the block and zeroes the capacity — neither
is a no-op. -/
theorem self_assign_unguarded_counterexample :
    selfCopyAssignNoGuard (⟨[[5]], 1, 2⟩ : SOAVector Nat)
      ≠ (⟨[[5]], 1, 2⟩ : SOAVector Nat) ∧
    selfMoveAssignNoGuard (⟨[[5]], 1, 2⟩ : SOAVector Nat)
      ≠ (⟨[[5]], 1, 2⟩ : SOAVector Nat) ∧
    size (selfCopyAssignNoGuard (⟨[[5]], 1, 2⟩ : SOAVector Nat)) = 0 ∧
    capacity (selfMoveAssignNoGuard (⟨[[5]], 1, 2⟩ : SOAVector Nat)) = 0 := by
  refine ⟨by decide, by decide, by decide, by decide⟩

/-- Claim C6 as amended: in soa.cpp and the first class copy, whose
assignment operators test &other == this, self copy-assignment and self
move-assignment return before any destruction or deallocation and leave the
state unchanged.  In the second class copy, which lacks the check,
self-assignment is not a no-op: A = A destroys every element and leaves
size() = 0 with capacity unchanged, and A = move(A) frees the block once and
leaves size() = 0 and capacity() = 0; in both paths each element is
destroyed once and the block freed at most once. -/
theorem self_assign_amended {Val : Type} (a : SOAVector Val) :
    (copyAssign true a a = a ∧ moveAssign true a a = (a, a)) ∧
    (size (selfCopyAssignNoGuard a) = 0 ∧
     capacity (selfCopyAssignNoGuard a) = capacity a ∧
     (∀ i k, get (selfCopyAssignNoGuard a) i k = none) ∧
     size (selfMoveAssignNoGuard a) = 0 ∧
     capacity (selfMoveAssignNoGuard a) = 0) := by
  refine ⟨⟨rfl, rfl⟩, ?_, ?_, ?_, rfl, rfl⟩
  · unfold size selfCopyAssignNoGuard reserve reallocate clear
    dsimp only
    split <;> rfl
  · unfold capacity selfCopyAssignNoGuard size reserve reallocate clear
    dsimp only
    split
    · exact absurd (by assumption) (Nat.not_lt_zero _)
    · rfl
  · intro i k
    unfold get selfCopyAssignNoGuard size reserve reallocate clear
    dsimp only
    split <;>
    · rw [List.getElem?_map]
      cases a.arrays[i]? <;> simp

/-- Claim C7 (confirmed): move-construction and (non-aliased) move-assignment
adopt the source's block, size and capacity wholesale, so the target reports
the source's prior size, capacity and element values, and the source is left
with null pointers, size 0 and capacity 0. -/
theorem move_transfer_spec {Val : Type} (t a : SOAVector Val) :
    (size (moveCtor a).1 = size a ∧ capacity (moveCtor a).1 = capacity a ∧
     (∀ i k, get (moveCtor a).1 i k = get a i k) ∧
     size (moveCtor a).2 = 0 ∧ capacity (moveCtor a).2 = 0) ∧
    (size (moveAssign false t a).1 = size a ∧
     capacity (moveAssign false t a).1 = capacity a ∧
     (∀ i k, get (moveAssign false t a).1 i k = get a i k) ∧
     size (moveAssign false t a).2 = 0 ∧
     capacity (moveAssign false t a).2 = 0) := by
  refine ⟨⟨rfl, rfl, fun i k => rfl, rfl, rfl⟩,
          ⟨rfl, rfl, fun i k => rfl, rfl, rfl⟩⟩

/-- Claim C4, counterexample: a container of one array with size 2 and
capacity 2.  The claim predicts growth to max(size * 1.5, size + 1)
= max 3 3 = 3, but push_back reserves size_ * growth_factor + 1 = 4. -/
theorem push_growth_counterexample :
    capacity (push_back (⟨[[1, 2]], 2, 2⟩ : SOAVector Nat) [9]) = 4 ∧
    capacity (push_back (⟨[[1, 2]], 2, 2⟩ : SOAVector Nat) [9]) ≠ max 3 (2 + 1) := by
  constructor <;> decide

/-- Claim C4 as amended (the growth target is size * 1.5 + 1 truncated, i.e.
3 * size / 2 + 1, not max(size * 1.5, size + 1)): whenever size + 1 exceeds
the capacity, push_back grows the capacity to exactly growCap size before
constructing, and the push increments size by one. -/
theorem push_growth_amended {Val : Type} (s : SOAVector Val) (vals : List Val)
    (h : s.size_ + 1 > s.capacity_) :
    capacity (push_back s vals) = growCap (size s) ∧
    size (push_back s vals) = size s + 1 := by
  refine ⟨?_, ?_⟩
  · unfold capacity size
    rw [capacity_push_back]
    simp [h]
  · unfold size
    rw [size_push_back]

theorem push_growth_amended_witness :
    ((2 : Nat) + 1 > 2) ∧
    (capacity (push_back (⟨[[1, 2]], 2, 2⟩ : SOAVector Nat) [9])
       = growCap (size (⟨[[1, 2]], 2, 2⟩ : SOAVector Nat)) ∧
     size (push_back (⟨[[1, 2]], 2, 2⟩ : SOAVector Nat) [9])
       = size (⟨[[1, 2]], 2, 2⟩ : SOAVector Nat) + 1) :=
  ⟨by decide, push_growth_amended (⟨[[1, 2]], 2, 2⟩ : SOAVector Nat) [9] (by decide)⟩

/-- Claim C5: the member is written return this->size_ > 0, the exact
inversion of the documented contract (the repository's own doc comment says
it returns true if the vector is empty).  Evaluating the translation: on a
container of size 0 it returns false, and on a container of size 1 it
returns true. -/
theorem empty_eval :
    empty (mkEmptyN 2 Nat) = false ∧ size (mkEmptyN 2 Nat) = 0 ∧
    empty (⟨[[7], [8]], 1, 1⟩ : SOAVector Nat) = true ∧
    size (⟨[[7], [8]], 1, 1⟩ : SOAVector Nat) = 1 := by
  refine ⟨rfl, rfl, rfl, rfl⟩

/-- Claim C1: evaluating the source's layout function on two types with
(sizeof, alignof) = (2, 2) and (32, 8) at capacity 5.  The claim's recurrence
(specLayoutOffsets) demands offsets [2, 16]; the code returns offsets [0, 8]
with total 168, because offsets[0] is left zero-initialised and the cursor
starts at alignments[0] without ever advancing past array 0's
capacity * sizeof(type 0) = 10 bytes.  In particular offsets[1] = 8 lies
strictly inside array 0's byte range [0, 10), so the two sub-ranges
overlap. -/
theorem layout_eval_failing :
    getArrayOffsetsAndAllocationSize [2, 32] [2, 8] 5 = ([0, 8], 168) ∧
    specLayoutOffsets [2, 32] [2, 8] 5 = [2, 16] ∧
    (getArrayOffsetsAndAllocationSize [2, 32] [2, 8] 5).1
      ≠ specLayoutOffsets [2, 32] [2, 8] 5 ∧
    ((getArrayOffsetsAndAllocationSize [2, 32] [2, 8] 5).1.getD 1 0
      < (getArrayOffsetsAndAllocationSize [2, 32] [2, 8] 5).1.getD 0 0 + 5 * 2) := by
  refine ⟨by decide, by decide, by decide, by decide⟩

/-- Claim C10 (confirmed): 0 <= size <= capacity is established by the
constructors and preserved by every public operation (the operand containers
being assumed to satisfy it), and from capacity() = 0 the first push_back
yields capacity() >= 1 and size() = 1; preservation under push_back is what
makes repeated pushes never exceed the capacity. -/
theorem inv_preserved (Val : Type) :
    (∀ N : Nat, Inv (mkEmptyN N Val)) ∧
    (∀ (N n : Nat) (d : Val), Inv (sizedCtor N d n)) ∧
    (∀ (s : SOAVector Val) (vals : List Val), Inv s → Inv (push_back s vals)) ∧
    (∀ s : SOAVector Val, Inv s → Inv (pop_back s)) ∧
    (∀ s : SOAVector Val, Inv s → Inv (clear s)) ∧
    (∀ (s : SOAVector Val) (n : Nat), Inv s → Inv (reserve s n)) ∧
    (∀ s : SOAVector Val, Inv s → Inv (shrink_to_fit s)) ∧
    (∀ o : SOAVector Val, Inv o → Inv (copyCtor o)) ∧
    (∀ (b : Bool) (t o : SOAVector Val), Inv t → Inv o →
       Inv (copyAssign b t o)) ∧
    (∀ o : SOAVector Val, Inv o → Inv (moveCtor o).1 ∧ Inv (moveCtor o).2) ∧
    (∀ (b : Bool) (t o : SOAVector Val), Inv t → Inv o →
       Inv (moveAssign b t o).1 ∧ Inv (moveAssign b t o).2) ∧
    (∀ (s : SOAVector Val) (vals : List Val), s.capacity_ = 0 → Inv s →
       capacity (push_back s vals) ≥ 1 ∧ size (push_back s vals) = 1) := by
  refine ⟨?_, ?_, ?_, ?_, ?_, ?_, ?_, ?_, ?_, ?_, ?_, ?_⟩
  · intro N
    simp [Inv, mkEmptyN]
  · intro N n d
    unfold Inv sizedCtor reserve reallocate mkEmptyN
    dsimp only
    split
    · exact Nat.le.refl
    · show n ≤ 0
      omega
  · intro s vals hs
    unfold Inv at *
    rw [size_push_back, capacity_push_back]
    unfold growCap
    split <;> omega
  · intro s hs
    unfold Inv pop_back at *
    dsimp only
    omega
  · intro s hs
    unfold Inv clear at *
    dsimp only
    omega
  · intro s n hs
    unfold Inv reserve reallocate at *
    split
    · show s.size_ ≤ n
      omega
    · exact hs
  · intro s hs
    unfold Inv shrink_to_fit reallocate at *
    split
    · exact Nat.le.refl
    · exact hs
  · intro o ho
    unfold Inv copyCtor reserve reallocate at *
    dsimp only
    split
    · exact Nat.le.refl
    · show o.size_ ≤ 0
      omega
  · intro b t o ht ho
    unfold Inv copyAssign clear reserve reallocate at *
    dsimp only
    split
    · exact ht
    · split
      · exact Nat.le.refl
      · show o.size_ ≤ t.capacity_
        omega
  · intro o ho
    exact ⟨ho, Nat.le.refl⟩
  · intro b t o ht ho
    unfold Inv moveAssign at *
    split
    · exact ⟨ht, ho⟩
    · exact ⟨ho, Nat.le.refl⟩
  · intro s vals hc hs
    unfold Inv at hs
    unfold capacity size
    rw [capacity_push_back, size_push_back]
    unfold growCap
    constructor
    · split <;> omega
    · omega

theorem inv_preserved_witness :
    (Inv (⟨[[1, 2]], 2, 2⟩ : SOAVector Nat) ∧ Inv (mkEmptyN 1 Nat) ∧
     (mkEmptyN 1 Nat).capacity_ = 0) ∧
    (Inv (push_back (⟨[[1, 2]], 2, 2⟩ : SOAVector Nat) [9]) ∧
     Inv (pop_back (⟨[[1, 2]], 2, 2⟩ : SOAVector Nat)) ∧
     capacity (push_back (mkEmptyN 1 Nat) [5]) ≥ 1 ∧
     size (push_back (mkEmptyN 1 Nat) [5]) = 1) := by
  have h := inv_preserved Nat
  exact ⟨⟨by decide, by decide, by decide⟩,
         h.2.2.1 (⟨[[1, 2]], 2, 2⟩ : SOAVector Nat) [9] (by decide),
         h.2.2.2.1 (⟨[[1, 2]], 2, 2⟩ : SOAVector Nat) (by decide),
         (h.2.2.2.2.2.2.2.2.2.2.2 (mkEmptyN 1 Nat) [5] (by decide) (by decide)).1,
         (h.2.2.2.2.2.2.2.2.2.2.2 (mkEmptyN 1 Nat) [5] (by decide) (by decide)).2⟩

end SOA
